import Mathlib

/-!
Shallow embedding of the lane-runner simulation engine
(`src/lane-runner/src/game/config.ts`, class `LaneRunnerSim`, together with
the helper functions `rectsOverlap` and `clamp` from the same file and the
data shapes from `types.ts`).

Modelling choices:
* JavaScript numbers are modelled by `JSNum` (NaN, the two infinities, or a
  finite value represented exactly by a rational).  Inside `update` the
  delta is guarded by `Number.isFinite` and `<= 0`, so all state arithmetic
  after the guard is on finite values and is carried out directly in `ℚ`.
  The `lane` field is kept as a `JSNum` because `moveToLane` feeds an
  arbitrary caller-supplied number through `Math.round` and `clamp`.
* `Math.random()` is modelled by a stream `ℕ → UnitRat` of draws in
  `[0, 1)`, consumed at explicit indices in the same order as the source.
* The `while (spawnCooldownSec <= 0)` loop is executed with an explicit
  fuel `spawnFuel`; the development proves the fuel is always sufficient
  (the base case is never reached), so the fueled function agrees with the
  source loop.
* `makeId` produces an opaque random token that the engine never inspects;
  it is modelled by a fresh counter `nextId`, and the `Math.random()` call
  inside `makeId` still consumes one draw from the stream.
-/

namespace LaneRunner

/-- `PlayerPose` from `types.ts`. -/
inductive PlayerPose where
  | normal
  | jumping
  | sliding
deriving DecidableEq

/-- `ObstacleKind` from `types.ts`. -/
inductive ObstacleKind where
  | low
  | high
deriving DecidableEq

/-- `DifficultyId` from `types.ts`. -/
inductive DifficultyId where
  | easy
  | medium
  | hard
deriving DecidableEq

/-- `DifficultyOption` from `types.ts`. -/
structure DifficultyOption where
  id : DifficultyId
  name : String
  initialSpeedPxPerSec : ℚ
  initialSpawnIntervalSec : ℚ
deriving DecidableEq

/-- `Obstacle` from `types.ts`; the random string id is modelled by a
natural-number token (opaque, never inspected by the engine). -/
structure Obstacle where
  id : ℕ
  lane : ℕ
  kind : ObstacleKind
  y : ℚ
  width : ℚ
  height : ℚ
deriving DecidableEq

/-- `Rect` from `config.ts`. -/
structure Rect where
  x : ℚ
  y : ℚ
  w : ℚ
  h : ℚ
deriving DecidableEq

/-- `rectsOverlap` from `config.ts`. -/
def rectsOverlap (a b : Rect) : Bool :=
  (a.x < b.x + b.w) && (a.x + a.w > b.x) && (a.y < b.y + b.h) && (a.y + a.h > b.y)

/-- A JavaScript number: NaN, an infinity, or a finite value. -/
inductive JSNum where
  | nan
  | posInf
  | negInf
  | fin (q : ℚ)
deriving DecidableEq

/-- `Number.isFinite`. -/
def JSNum.isFinite : JSNum → Bool
  | .fin _ => true
  | _ => false

/-- `Math.min` on JavaScript numbers: NaN if either argument is NaN. -/
def jsMin : JSNum → JSNum → JSNum
  | .nan, _ => .nan
  | _, .nan => .nan
  | .negInf, _ => .negInf
  | _, .negInf => .negInf
  | .posInf, b => b
  | a, .posInf => a
  | .fin a, .fin b => .fin (min a b)

/-- `Math.max` on JavaScript numbers: NaN if either argument is NaN. -/
def jsMax : JSNum → JSNum → JSNum
  | .nan, _ => .nan
  | _, .nan => .nan
  | .posInf, _ => .posInf
  | _, .posInf => .posInf
  | .negInf, b => b
  | a, .negInf => a
  | .fin a, .fin b => .fin (max a b)

/-- JavaScript addition on the modelled numbers. -/
def jsAdd : JSNum → JSNum → JSNum
  | .nan, _ => .nan
  | _, .nan => .nan
  | .posInf, .negInf => .nan
  | .negInf, .posInf => .nan
  | .posInf, _ => .posInf
  | _, .posInf => .posInf
  | .negInf, _ => .negInf
  | _, .negInf => .negInf
  | .fin a, .fin b => .fin (a + b)

/-- `Math.round`: NaN and infinities pass through; a finite value rounds
half toward positive infinity (`Math.round x = Math.floor (x + 0.5)`). -/
def jsRound : JSNum → JSNum
  | .nan => .nan
  | .posInf => .posInf
  | .negInf => .negInf
  | .fin q => .fin ((⌊q + 1/2⌋ : ℤ) : ℚ)

/-- `clamp` from `config.ts`: `Math.max(min, Math.min(max, n))`. -/
def clamp (n mn mx : JSNum) : JSNum := jsMax mn (jsMin mx n)

/-- `clamp` specialised to finite values (used after the finiteness guard). -/
def clampQ (n mn mx : ℚ) : ℚ := max mn (min mx n)

/-- A `Math.random()` draw: a rational in `[0, 1)`. -/
def UnitRat : Type := {q : ℚ // 0 ≤ q ∧ q < 1}

/-- `SimConfig` from `config.ts`. -/
structure SimConfig where
  difficulty : DifficultyOption
  lanes : ℕ

/-- The world-geometry argument of `update`. -/
structure World where
  width : ℚ
  height : ℚ
  roadX : ℚ
  roadW : ℚ
  car : Rect

/-- The mutable state of `LaneRunnerSim` (fields of the class). -/
structure Sim where
  lanes : ℕ
  difficulty : DifficultyOption
  timeSec : ℚ
  distancePx : ℚ
  score : ℚ
  lane : JSNum
  pose : PlayerPose
  poseT : ℚ
  speedPxPerSec : ℚ
  spawnIntervalSec : ℚ
  spawnCooldownSec : ℚ
  crashed : Bool
  obstacles : List Obstacle
  nextId : ℕ
deriving DecidableEq

/-- The `LaneRunnerSim` constructor together with the class field
initializers (`timeSec = 0`, …, `lane = 1`, `pose = 'normal'`, …). -/
def Sim.init (cfg : SimConfig) : Sim where
  lanes := cfg.lanes
  difficulty := cfg.difficulty
  timeSec := 0
  distancePx := 0
  score := 0
  lane := .fin 1
  pose := .normal
  poseT := 0
  speedPxPerSec := cfg.difficulty.initialSpeedPxPerSec
  spawnIntervalSec := cfg.difficulty.initialSpawnIntervalSec
  spawnCooldownSec := cfg.difficulty.initialSpawnIntervalSec
  crashed := false
  obstacles := []
  nextId := 0

/-- `moveLeft`: `lane = clamp(lane - 1, 0, lanes - 1)`. -/
def Sim.moveLeft (s : Sim) : Sim :=
  { s with lane := clamp (jsAdd s.lane (.fin (-1))) (.fin 0) (.fin ((s.lanes : ℚ) - 1)) }

/-- `moveRight`: `lane = clamp(lane + 1, 0, lanes - 1)`. -/
def Sim.moveRight (s : Sim) : Sim :=
  { s with lane := clamp (jsAdd s.lane (.fin 1)) (.fin 0) (.fin ((s.lanes : ℚ) - 1)) }

/-- `moveToLane`: `lane = clamp(Math.round(lane), 0, lanes - 1)`. -/
def Sim.moveToLane (s : Sim) (lane : JSNum) : Sim :=
  { s with lane := clamp (jsRound lane) (.fin 0) (.fin ((s.lanes : ℚ) - 1)) }

/-- `jump`: only from pose `normal`. -/
def Sim.jump (s : Sim) : Sim :=
  if s.pose = .normal then { s with pose := .jumping, poseT := 0 } else s

/-- `slide`: only from pose `normal`. -/
def Sim.slide (s : Sim) : Sim :=
  if s.pose = .normal then { s with pose := .sliding, poseT := 0 } else s

/-- `getObstacleRect` (a method reading `this.lanes`). -/
def getObstacleRect (lanes : ℕ) (o : Obstacle) (roadX roadW : ℚ) : Rect :=
  let laneWidth := roadW / (lanes : ℚ)
  let lanePadding := laneWidth * 0.2
  { x := roadX + (o.lane : ℚ) * laneWidth + lanePadding
        + (laneWidth - 2 * lanePadding - o.width) / 2
    y := o.y
    w := o.width
    h := o.height }

/-- The pose block of `update` (source lines: if pose is not normal, accrue
`poseT` and revert to normal once the fixed duration is reached). -/
def poseStep (pose : PlayerPose) (poseT dt : ℚ) : PlayerPose × ℚ :=
  if pose = .normal then (pose, poseT)
  else
    let pT := poseT + dt
    let duration : ℚ := if pose = .jumping then 0.6 else 0.75
    if pT ≥ duration then (.normal, 0) else (pose, pT)

/-- `spawnObstacle(roadW)`.  Draw `i` picks the lane, draw `i+1` the kind
roll, draw `i+2` the vertical stagger, and draw `i+3` feeds `makeId`'s
random token (whose value is modelled by the fresh counter `nid`). -/
def spawnObstacle (lanes : ℕ) (roadW : ℚ) (rand : ℕ → UnitRat) (i : ℕ)
    (obs : List Obstacle) (nid : ℕ) : List Obstacle × ℕ × ℕ :=
  let lane : ℕ := (⌊(rand i).val * (lanes : ℚ)⌋).toNat
  let laneBias : ℚ :=
    match obs.getLast? with
    | some last => if last.lane = lane then 0.25 else 0
    | none => 0
  let roll : ℚ := (rand (i + 1)).val + laneBias
  let kind : ObstacleKind := if roll < 0.6 then .low else .high
  let laneWidth : ℚ := roadW / (lanes : ℚ)
  let width : ℚ := ((⌊laneWidth * 0.58⌋ : ℤ) : ℚ)
  let height : ℚ := if kind = .low then 22 else 26
  let y : ℚ := -120 - (rand (i + 2)).val * 220
  (obs ++ [{ id := nid, lane := lane, kind := kind, y := y, width := width, height := height }],
   nid + 1, i + 4)

/-- Fuel sufficient for the spawn `while` loop: each iteration raises the
cooldown by at least `(1 - 0.15) * I`, so this many iterations bring any
starting cooldown `c` above zero. -/
def spawnFuel (c I : ℚ) : ℕ := (⌈1 - c / ((1 - 0.15) * I)⌉).toNat

/-- Result of the spawn loop: obstacle list, next id, next random index,
and the replenished cooldown. -/
structure SpawnResult where
  obstacles : List Obstacle
  nextId : ℕ
  randIx : ℕ
  cooldown : ℚ
deriving DecidableEq

/-- The `while (spawnCooldownSec <= 0)` loop of `update`, run on explicit
fuel.  Each iteration spawns one obstacle and adds
`spawnIntervalSec + (random * 2 - 1) * (0.15 * spawnIntervalSec)` to the
cooldown.  `spawnLoop_fuel_sufficient` below shows the fuel used by
`Sim.update` never runs out, so the base case is unreachable there. -/
def spawnLoop (lanes : ℕ) (roadW I : ℚ) (rand : ℕ → UnitRat) :
    ℕ → List Obstacle → ℕ → ℕ → ℚ → SpawnResult
  | 0, obs, nid, i, c => ⟨obs, nid, i, c⟩
  | fuel + 1, obs, nid, i, c =>
    if c ≤ 0 then
      match spawnObstacle lanes roadW rand i obs nid with
      | (obs', nid', i') =>
        let jitter := 0.15 * I
        spawnLoop lanes roadW I rand fuel obs' nid' (i' + 1)
          (c + I + ((rand i').val * 2 - 1) * jitter)
    else ⟨obs, nid, i, c⟩

/-- `LaneRunnerSim.update(dtSec, world)`. -/
def Sim.update (s : Sim) (dtSec : JSNum) (world : World) (rand : ℕ → UnitRat) : Sim :=
  if s.crashed then s
  else
    match dtSec with
    | .fin q =>
      if q ≤ 0 then s
      else
        let dt := clampQ q 0 0.05
        let timeSec := s.timeSec + dt
        let distancePx := s.distancePx + s.speedPxPerSec * dt
        let score := timeSec * 12 + distancePx / 18
        let speedPxPerSec := s.speedPxPerSec * (1 + 0.005 * dt)
        let spawnIntervalSec := max 0.25 (s.spawnIntervalSec * (1 - 0.01 * dt))
        let pp := poseStep s.pose s.poseT dt
        let c0 := s.spawnCooldownSec - dt
        let sr := spawnLoop s.lanes world.roadW spawnIntervalSec rand
          (spawnFuel c0 spawnIntervalSec) s.obstacles s.nextId 0 c0
        let moved := sr.obstacles.map (fun o => { o with y := o.y + speedPxPerSec * dt })
        let remaining := moved.filter (fun o => o.y < world.height + 120)
        let crashed := remaining.any (fun o =>
          rectsOverlap world.car (getObstacleRect s.lanes o world.roadX world.roadW))
        { s with timeSec := timeSec, distancePx := distancePx, score := score,
                 speedPxPerSec := speedPxPerSec, spawnIntervalSec := spawnIntervalSec,
                 pose := pp.1, poseT := pp.2, spawnCooldownSec := sr.cooldown,
                 nextId := sr.nextId, obstacles := remaining, crashed := crashed }
    | _ => s

/-- A lane-changing command, for stating properties over command sequences. -/
inductive Cmd where
  | left
  | right
  | toLane (n : JSNum)

/-- Apply one lane command to the simulation. -/
def applyCmd (s : Sim) : Cmd → Sim
  | .left => s.moveLeft
  | .right => s.moveRight
  | .toLane n => s.moveToLane n

/-- Run a sequence of lane commands. -/
def runCmds (s : Sim) (l : List Cmd) : Sim := l.foldl applyCmd s

/-- A command never passing NaN to `moveToLane`. -/
def Cmd.noNaN : Cmd → Prop
  | .toLane n => n ≠ .nan
  | _ => True

/-- The lane value is a finite number in `[0, lanes)`. -/
def laneInRange (x : JSNum) (lanes : ℕ) : Prop :=
  ∃ q : ℚ, x = .fin q ∧ 0 ≤ q ∧ q < (lanes : ℚ)

/-- The arguments of one `update` call. -/
structure Step where
  dt : JSNum
  world : World
  rand : ℕ → UnitRat

/-- Run a sequence of `update` calls. -/
def runSteps (s : Sim) (l : List Step) : Sim :=
  l.foldl (fun s st => s.update st.dt st.world st.rand) s

/-- The effective (clamped) delta of one `update` call: `clamp(dt, 0, 0.05)`
for a finite argument, `0` when the call is rejected by the guard. -/
def Step.effDt (st : Step) : ℚ :=
  match st.dt with
  | .fin q => clampQ q 0 0.05
  | _ => 0

/-- Whether an obstacle's rectangle overlaps the player car of `world`. -/
def hitsCar (lanes : ℕ) (world : World) (o : Obstacle) : Bool :=
  rectsOverlap world.car (getObstacleRect lanes o world.roadX world.roadW)

/-- The `easy` preset from `DIFFICULTIES` in `config.ts`. -/
def easyOption : DifficultyOption := ⟨.easy, "Easy", 220, 1.35⟩

/-- The `medium` preset from `DIFFICULTIES` in `config.ts`. -/
def mediumOption : DifficultyOption := ⟨.medium, "Medium", 290, 1.05⟩

/-- The `hard` preset from `DIFFICULTIES` in `config.ts`. -/
def hardOption : DifficultyOption := ⟨.hard, "Hard", 370, 0.85⟩

/-- `DIFFICULTIES` from `config.ts`. -/
def DIFFICULTIES : List DifficultyOption := [easyOption, mediumOption, hardOption]

/-- A fixed random stream: every draw is `1/2`. -/
def randHalf : ℕ → UnitRat := fun _ => ⟨1/2, by norm_num⟩

/-- A concrete world geometry for witnesses (900×560 canvas, road from
x = 40 of width 820, car resting near the bottom). -/
def world0 : World :=
  { width := 900, height := 560, roadX := 40, roadW := 820
    car := { x := 300, y := 500, w := 80, h := 46 } }

/-- The shipped configuration: 4 lanes, easy preset. -/
def cfg4 : SimConfig := ⟨easyOption, 4⟩

/-- Total effective simulated time of a sequence of `update` calls. -/
def sumEffDt (l : List Step) : ℚ := (l.map Step.effDt).sum

/-- The fixed pose duration selected inside `update`
(`pose === 'jumping' ? 0.6 : 0.75`). -/
def poseDuration (pose : PlayerPose) : ℚ := if pose = .jumping then 0.6 else 0.75

/-- An obstacle injected squarely onto the player rectangle of `world0`. -/
def obsInj : Obstacle := { id := 0, lane := 1, kind := .low, y := 500, width := 80, height := 46 }

/-- A fresh 4-lane state with the overlapping obstacle injected. -/
def simInj : Sim := { Sim.init cfg4 with obstacles := [obsInj] }

/-- A custom difficulty whose initial spawn interval is below the 0.25 s
floor (allowed by the claim's "every configured initial spawn interval
> 0"). -/
def lowOption : DifficultyOption := ⟨.easy, "Tiny", 220, 0.1⟩

def cfgLow : SimConfig := ⟨lowOption, 4⟩

/-- One 50 ms tick against `world0` with the fixed random stream. -/
def stepTick : Step := ⟨.fin (1/20), world0, randHalf⟩

def simJump0 : Sim := (Sim.init cfg4).jump

/-- A crashed state with otherwise fresh fields, for concrete checks. -/
def simCrashed : Sim := { Sim.init cfg4 with crashed := true }

/-- A fresh state put into the jumping pose mid-animation. -/
def simJumping : Sim := { Sim.init cfg4 with pose := .jumping, poseT := 1/10 }

/-- A fresh state put into the sliding pose mid-animation. -/
def simSliding : Sim := { Sim.init cfg4 with pose := .sliding, poseT := 1/10 }

/-!  ### Basic lemmas about the embedded operations  -/

/-- The spawn loop exits at once when the cooldown is already positive,
whatever the fuel. -/
theorem spawnLoop_of_pos (lanes : ℕ) (roadW I : ℚ) (rand : ℕ → UnitRat)
    (fuel : ℕ) (obs : List Obstacle) (nid i : ℕ) (c : ℚ) (hc : 0 < c) :
    spawnLoop lanes roadW I rand fuel obs nid i c = ⟨obs, nid, i, c⟩ := by
  cases fuel with
  | zero => rfl
  | succ n => simp [spawnLoop, not_le.mpr hc]

/-- `update` is the identity on a crashed simulation. -/
theorem update_of_crashed (s : Sim) (dtSec : JSNum) (world : World)
    (rand : ℕ → UnitRat) (h : s.crashed = true) :
    s.update dtSec world rand = s := by
  simp [Sim.update, h]

/-- `update` is the identity when the delta is not a finite number. -/
theorem update_of_not_finite (s : Sim) (dtSec : JSNum) (world : World)
    (rand : ℕ → UnitRat) (h : dtSec.isFinite = false) :
    s.update dtSec world rand = s := by
  cases hc : s.crashed <;> cases dtSec <;>
    simp_all [Sim.update, JSNum.isFinite]

/-- `update` is the identity when the delta is finite but not positive. -/
theorem update_of_nonpos (s : Sim) (q : ℚ) (world : World)
    (rand : ℕ → UnitRat) (h : q ≤ 0) :
    s.update (.fin q) world rand = s := by
  cases hc : s.crashed <;> simp [Sim.update, hc, h]

/-- The clamped value stays inside the clamp interval. -/
theorem clampQ_bounds {mn mx : ℚ} (n : ℚ) (h : mn ≤ mx) :
    mn ≤ clampQ n mn mx ∧ clampQ n mn mx ≤ mx :=
  ⟨le_max_left _ _, max_le h (min_le_left _ _)⟩


/-!  ### Claim theorems  -/

/-- C3 (counterexample): with the shipped 4-lane configuration the
constructor does NOT put the player on lane 2; the class field initializer
sets `lane = 1`. -/
theorem init_lane_ne_two : (Sim.init cfg4).lanes = 4 ∧ (Sim.init cfg4).lane ≠ JSNum.fin 2 := by
  refine ⟨rfl, fun h => ?_⟩
  rw [Sim.init] at h
  simp only [JSNum.fin.injEq] at h
  norm_num at h

/-- C3 (amended): construction initializes the player to lane index 1
(regardless of the configured lane count, hence not the middle-right lane 2
of a 4-lane road), pose `normal`, elapsed time, distance and score all 0,
speed and spawn interval from the config, spawn cooldown equal to the
initial spawn interval, `crashed = false`, and no obstacles. -/
theorem init_state_spec (cfg : SimConfig) :
    (Sim.init cfg).lane = JSNum.fin 1 ∧
    (Sim.init cfg).pose = PlayerPose.normal ∧
    (Sim.init cfg).timeSec = 0 ∧
    (Sim.init cfg).distancePx = 0 ∧
    (Sim.init cfg).score = 0 ∧
    (Sim.init cfg).speedPxPerSec = cfg.difficulty.initialSpeedPxPerSec ∧
    (Sim.init cfg).spawnIntervalSec = cfg.difficulty.initialSpawnIntervalSec ∧
    (Sim.init cfg).spawnCooldownSec = cfg.difficulty.initialSpawnIntervalSec ∧
    (Sim.init cfg).crashed = false ∧
    (Sim.init cfg).obstacles = [] :=
  ⟨rfl, rfl, rfl, rfl, rfl, rfl, rfl, rfl, rfl, rfl⟩

/-- C2 (counterexample): the command operations are not gated on the
crashed flag: `moveLeft` on a crashed state still changes the lane. -/
theorem crashed_moveLeft_mutates :
    simCrashed.crashed = true ∧ simCrashed.moveLeft ≠ simCrashed := by
  refine ⟨rfl, fun h => ?_⟩
  have h' := congrArg Sim.lane h
  simp only [simCrashed, Sim.moveLeft, Sim.init, cfg4, clamp, jsAdd, jsMin, jsMax,
    JSNum.fin.injEq] at h'
  rw [min_eq_right (by norm_num), max_eq_right (by norm_num)] at h'
  norm_num at h'

/-- C2 (amended): once the crashed flag is true, every subsequent `update`
call is a complete no-op regardless of arguments.  (The command operations
`moveLeft`, `moveRight`, `moveToLane`, `jump` and `slide` are NOT gated on
the flag and can still mutate lane and pose, as the counterexample shows.) -/
theorem crashed_update_noop (s : Sim) (dtSec : JSNum) (world : World)
    (rand : ℕ → UnitRat) (h : s.crashed = true) :
    s.update dtSec world rand = s := by
  simp [Sim.update, h]

/-- C2 witness: the no-op theorem applied to a concrete crashed state. -/
theorem crashed_update_noop_witness :
    simCrashed.crashed = true ∧
    simCrashed.update (.fin 1) world0 randHalf = simCrashed :=
  ⟨rfl, crashed_update_noop simCrashed (.fin 1) world0 randHalf rfl⟩

/-- C7: `update` with a NaN, infinite or non-positive delta, or on a
crashed state, returns with no state change (and, being a total function,
raises nothing). -/
theorem update_guard_noop (s : Sim) (dtSec : JSNum) (world : World)
    (rand : ℕ → UnitRat)
    (h : dtSec.isFinite = false ∨ (∃ q, dtSec = .fin q ∧ q ≤ 0) ∨ s.crashed = true) :
    s.update dtSec world rand = s := by
  rcases h with h | ⟨q, rfl, hq⟩ | h
  · exact update_of_not_finite s dtSec world rand h
  · exact update_of_nonpos s q world rand hq
  · exact update_of_crashed s dtSec world rand h

/-- C7 witness: NaN, +∞, a zero delta and a negative delta all leave a
concrete fresh state untouched. -/
theorem update_guard_noop_witness :
    (Sim.init cfg4).update .nan world0 randHalf = Sim.init cfg4 ∧
    (Sim.init cfg4).update .posInf world0 randHalf = Sim.init cfg4 ∧
    (Sim.init cfg4).update (.fin 0) world0 randHalf = Sim.init cfg4 ∧
    (Sim.init cfg4).update (.fin (-1)) world0 randHalf = Sim.init cfg4 :=
  ⟨update_guard_noop _ _ _ _ (Or.inl rfl),
   update_guard_noop _ _ _ _ (Or.inl rfl),
   update_guard_noop _ _ _ _ (Or.inr (Or.inl ⟨0, rfl, le_refl 0⟩)),
   update_guard_noop _ _ _ _ (Or.inr (Or.inl ⟨-1, rfl, by norm_num⟩))⟩

/-- C9: `jump` and `slide` are silent no-ops whenever the pose is not
`normal`; from `normal` they transition to `jumping` / `sliding` with
pose-elapsed time reset to 0 and every other field unchanged. -/
theorem jump_slide_pose_machine (s : Sim) :
    (s.pose ≠ .normal → s.jump = s ∧ s.slide = s) ∧
    (s.pose = .normal →
      s.jump = { s with pose := .jumping, poseT := 0 } ∧
      s.slide = { s with pose := .sliding, poseT := 0 }) := by
  constructor
  · intro h
    simp [Sim.jump, Sim.slide, h]
  · intro h
    simp [Sim.jump, Sim.slide, h]

/-- C9 witness: the pose machine applied to concrete jumping, sliding and
normal states. -/
theorem jump_slide_pose_machine_witness :
    (simJumping.jump = simJumping ∧ simJumping.slide = simJumping) ∧
    (simSliding.jump = simSliding ∧ simSliding.slide = simSliding) ∧
    (Sim.init cfg4).jump = { Sim.init cfg4 with pose := .jumping, poseT := 0 } :=
  ⟨(jump_slide_pose_machine simJumping).1 (by simp [simJumping]),
   (jump_slide_pose_machine simSliding).1 (by simp [simSliding]),
   ((jump_slide_pose_machine (Sim.init cfg4)).2 rfl).1⟩

/-- On an effective step, the new crashed flag is exactly the collision
scan over the post-movement, post-pruning obstacle list. -/
theorem update_crashed_any (s : Sim) (world : World) (rand : ℕ → UnitRat) (q : ℚ)
    (hcr : s.crashed = false) (hq : 0 < q) :
    (s.update (.fin q) world rand).crashed
      = (s.update (.fin q) world rand).obstacles.any (hitsCar s.lanes world) := by
  simp [Sim.update, hcr, not_le.mpr hq, hitsCar]

/-- C1: on an effective `update` of a non-crashed state, the crashed flag
becomes true iff some obstacle of the post-movement, post-pruning active
set has a rectangle (from its lane and stored vertical bounds) overlapping
the player rectangle supplied in the geometry.  The source's short-circuit
`break` only stops the scan early; the resulting flag equals this
existential. -/
theorem collision_iff (s : Sim) (world : World) (rand : ℕ → UnitRat) (q : ℚ)
    (hcr : s.crashed = false) (hq : 0 < q) :
    ((s.update (.fin q) world rand).crashed = true ↔
      ∃ o ∈ (s.update (.fin q) world rand).obstacles, hitsCar s.lanes world o = true) := by
  rw [update_crashed_any s world rand q hcr hq, List.any_eq_true]


/-- Concrete evaluation: one tick moves the injected obstacle down by
`speed * dt` and keeps it (it is far from the pruning bound). -/
theorem simInj_update_obstacles : (simInj.update (.fin (1/60)) world0 randHalf).obstacles
    = [{ obsInj with y := 500 + 220 * (1 + 0.005 * (1/60)) * (1/60) }] := by
  norm_num [simInj, Sim.init, cfg4, easyOption, Sim.update, obsInj,
    spawnLoop_of_pos, clampQ, min_def, max_def, List.filter, world0]

/-- C1 witness: the injected overlapping obstacle makes the next `advance`
call set `crashed = true`. -/
theorem collision_iff_witness :
    simInj.crashed = false ∧
    (simInj.update (.fin (1/60)) world0 randHalf).crashed = true := by
  refine ⟨rfl, ?_⟩
  apply (collision_iff simInj world0 randHalf (1/60) rfl (by norm_num)).mpr
  refine ⟨{ obsInj with y := 500 + 220 * (1 + 0.005 * (1/60)) * (1/60) }, ?_, ?_⟩
  · rw [simInj_update_obstacles]
    exact List.mem_singleton.mpr rfl
  · norm_num [hitsCar, getObstacleRect, rectsOverlap, obsInj, world0, simInj, Sim.init, cfg4]


/-- One `update` call never decreases a non-negative speed. -/
theorem update_speed_mono (s : Sim) (dtSec : JSNum) (world : World) (rand : ℕ → UnitRat)
    (h : 0 ≤ s.speedPxPerSec) :
    s.speedPxPerSec ≤ (s.update dtSec world rand).speedPxPerSec := by
  cases hc : s.crashed with
  | true => rw [update_of_crashed s dtSec world rand hc]
  | false =>
    cases dtSec with
    | fin q =>
      by_cases hq : q ≤ 0
      · rw [update_of_nonpos s q world rand hq]
      · push_neg at hq
        have hdt : 0 ≤ clampQ q 0 0.05 := (clampQ_bounds q (by norm_num)).1
        have : (s.update (.fin q) world rand).speedPxPerSec
            = s.speedPxPerSec * (1 + 0.005 * clampQ q 0 0.05) := by
          simp [Sim.update, hc, not_le.mpr hq]
        rw [this]
        nlinarith
    | nan => rw [update_of_not_finite s .nan world rand rfl]
    | posInf => rw [update_of_not_finite s .posInf world rand rfl]
    | negInf => rw [update_of_not_finite s .negInf world rand rfl]

/-- One `update` call never increases a spawn interval that is at or above
the 0.25 s floor, and never takes it below the floor. -/
theorem update_interval_step (s : Sim) (dtSec : JSNum) (world : World) (rand : ℕ → UnitRat)
    (h : 0.25 ≤ s.spawnIntervalSec) :
    (s.update dtSec world rand).spawnIntervalSec ≤ s.spawnIntervalSec ∧
    0.25 ≤ (s.update dtSec world rand).spawnIntervalSec := by
  cases hc : s.crashed with
  | true => rw [update_of_crashed s dtSec world rand hc]; exact ⟨le_refl _, h⟩
  | false =>
    cases dtSec with
    | fin q =>
      by_cases hq : q ≤ 0
      · rw [update_of_nonpos s q world rand hq]; exact ⟨le_refl _, h⟩
      · push_neg at hq
        have hdt : 0 ≤ clampQ q 0 0.05 := (clampQ_bounds q (by norm_num)).1
        have heq : (s.update (.fin q) world rand).spawnIntervalSec
            = max 0.25 (s.spawnIntervalSec * (1 - 0.01 * clampQ q 0 0.05)) := by
          simp [Sim.update, hc, not_le.mpr hq]
        rw [heq]
        constructor
        · apply max_le h
          have h0 : (0:ℚ) ≤ s.spawnIntervalSec := le_trans (by norm_num) h
          nlinarith
        · exact le_max_left _ _
    | nan => rw [update_of_not_finite s .nan world rand rfl]; exact ⟨le_refl _, h⟩
    | posInf => rw [update_of_not_finite s .posInf world rand rfl]; exact ⟨le_refl _, h⟩
    | negInf => rw [update_of_not_finite s .negInf world rand rfl]; exact ⟨le_refl _, h⟩

/-- C5 (amended): across every sequence of `update` calls, from any state
with non-negative speed (the spec requires a positive configured initial
speed) and spawn interval at least the 0.25 s floor (true of every shipped
preset), the speed is monotonic non-decreasing and the spawn interval is
monotonic non-increasing and stays at or above 0.25 s.  For a configured
initial spawn interval below 0.25 s the claim fails: the first effective
step raises the interval to the floor (see the counterexample). -/
theorem runSteps_speed_interval (l : List Step) (s : Sim)
    (hsp : 0 ≤ s.speedPxPerSec) (hI : 0.25 ≤ s.spawnIntervalSec) :
    s.speedPxPerSec ≤ (runSteps s l).speedPxPerSec ∧
    (runSteps s l).spawnIntervalSec ≤ s.spawnIntervalSec ∧
    0.25 ≤ (runSteps s l).spawnIntervalSec := by
  induction l generalizing s with
  | nil => exact ⟨le_refl _, le_refl _, hI⟩
  | cons st l ih =>
    have h1 := update_speed_mono s st.dt st.world st.rand hsp
    have h2 := update_interval_step s st.dt st.world st.rand hI
    have ih' := ih (s.update st.dt st.world st.rand) (le_trans hsp h1) h2.2
    exact ⟨le_trans h1 ih'.1, le_trans ih'.2.1 h2.1, ih'.2.2⟩



/-- C5 (counterexample): with a configured initial spawn interval of 0.1 s
(positive, as the claim allows), one effective `update` RAISES the spawn
interval to the 0.25 s floor, so it is not monotonic non-increasing. -/
theorem interval_can_increase :
    (0:ℚ) < (Sim.init cfgLow).spawnIntervalSec ∧
    (Sim.init cfgLow).crashed = false ∧
    (Sim.init cfgLow).spawnIntervalSec
      < ((Sim.init cfgLow).update (.fin (1/60)) world0 randHalf).spawnIntervalSec := by
  refine ⟨by norm_num [Sim.init, cfgLow, lowOption], rfl, ?_⟩
  norm_num [Sim.init, cfgLow, lowOption, Sim.update, spawnLoop_of_pos, clampQ,
    min_def, max_def, world0]

/-- C6: after every effective `update` step the elapsed time grew by the
clamped dt, the distance grew by the pre-ramp speed times the clamped dt,
and the score equals `timeSec * 12 + distancePx / 18` of the just-updated
values; given the score invariant and a non-negative speed the score is
monotonic non-decreasing. -/
theorem score_step (s : Sim) (world : World) (rand : ℕ → UnitRat) (q : ℚ)
    (hcr : s.crashed = false) (hq : 0 < q) :
    (s.update (.fin q) world rand).timeSec = s.timeSec + clampQ q 0 0.05 ∧
    (s.update (.fin q) world rand).distancePx
      = s.distancePx + s.speedPxPerSec * clampQ q 0 0.05 ∧
    (s.update (.fin q) world rand).score
      = (s.update (.fin q) world rand).timeSec * 12
        + (s.update (.fin q) world rand).distancePx / 18 ∧
    (0 ≤ s.speedPxPerSec → s.score = s.timeSec * 12 + s.distancePx / 18 →
      s.score ≤ (s.update (.fin q) world rand).score) := by
  have h1 : (s.update (.fin q) world rand).timeSec = s.timeSec + clampQ q 0 0.05 := by
    simp [Sim.update, hcr, not_le.mpr hq]
  have h2 : (s.update (.fin q) world rand).distancePx
      = s.distancePx + s.speedPxPerSec * clampQ q 0 0.05 := by
    simp [Sim.update, hcr, not_le.mpr hq]
  have h3 : (s.update (.fin q) world rand).score
      = (s.timeSec + clampQ q 0 0.05) * 12
        + (s.distancePx + s.speedPxPerSec * clampQ q 0 0.05) / 18 := by
    simp [Sim.update, hcr, not_le.mpr hq]
  refine ⟨h1, h2, by rw [h1, h2, h3], ?_⟩
  intro hv hs
  rw [h3, hs]
  have hdt : 0 ≤ clampQ q 0 0.05 := (clampQ_bounds q (by norm_num)).1
  have hvd : 0 ≤ s.speedPxPerSec * clampQ q 0 0.05 := mul_nonneg hv hdt
  have : 0 ≤ s.speedPxPerSec * clampQ q 0 0.05 / 18 :=
    div_nonneg hvd (by norm_num)
  linarith [hdt]

/-- C6 witness: the score step applied to the freshly constructed 4-lane
easy simulation. -/
theorem score_step_witness :
    (Sim.init cfg4).score = (Sim.init cfg4).timeSec * 12 + (Sim.init cfg4).distancePx / 18 ∧
    (Sim.init cfg4).score ≤ ((Sim.init cfg4).update (.fin (1/60)) world0 randHalf).score ∧
    ((Sim.init cfg4).update (.fin (1/60)) world0 randHalf).score
      = ((Sim.init cfg4).update (.fin (1/60)) world0 randHalf).timeSec * 12
        + ((Sim.init cfg4).update (.fin (1/60)) world0 randHalf).distancePx / 18 := by
  have h := score_step (Sim.init cfg4) world0 randHalf (1/60) rfl (by norm_num)
  have hs : (Sim.init cfg4).score = (Sim.init cfg4).timeSec * 12 + (Sim.init cfg4).distancePx / 18 := by
    norm_num [Sim.init]
  exact ⟨hs, h.2.2.2 (by norm_num [Sim.init, cfg4, easyOption]) hs, h.2.2.1⟩


/-- Clamping any non-NaN number into `[0, lanes - 1]` lands in range. -/
theorem clamp_lane_range (lanes : ℕ) (hl : 1 ≤ lanes) (x : JSNum) (hx : x ≠ .nan) :
    laneInRange (clamp x (.fin 0) (.fin ((lanes : ℚ) - 1))) lanes := by
  have h1 : (1:ℚ) ≤ (lanes : ℚ) := by exact_mod_cast hl
  have h0 : (0:ℚ) < (lanes : ℚ) := by linarith
  cases x with
  | nan => exact absurd rfl hx
  | posInf =>
    refine ⟨max 0 ((lanes : ℚ) - 1), by simp [clamp, jsMin, jsMax], le_max_left _ _, ?_⟩
    exact max_lt h0 (by linarith)
  | negInf =>
    exact ⟨0, by simp [clamp, jsMin, jsMax], le_refl _, h0⟩
  | fin a =>
    refine ⟨max 0 (min ((lanes : ℚ) - 1) a), by simp [clamp, jsMin, jsMax], le_max_left _ _, ?_⟩
    exact max_lt h0 (lt_of_le_of_lt (min_le_left _ _) (by linarith))

/-- One lane command keeps a non-NaN in-range lane in range. -/
theorem applyCmd_lane_range (s : Sim) (c : Cmd) (hr : laneInRange s.lane s.lanes)
    (hl : 1 ≤ s.lanes) (hn : c.noNaN) :
    laneInRange (applyCmd s c).lane s.lanes ∧ (applyCmd s c).lanes = s.lanes := by
  obtain ⟨q, hq, -, -⟩ := hr
  cases c with
  | left =>
    refine ⟨?_, rfl⟩
    simp only [applyCmd, Sim.moveLeft, hq]
    exact clamp_lane_range s.lanes hl _ (by simp [jsAdd])
  | right =>
    refine ⟨?_, rfl⟩
    simp only [applyCmd, Sim.moveRight, hq]
    exact clamp_lane_range s.lanes hl _ (by simp [jsAdd])
  | toLane n =>
    refine ⟨?_, rfl⟩
    simp only [applyCmd, Sim.moveToLane]
    apply clamp_lane_range s.lanes hl
    cases n with
    | nan => exact absurd rfl hn
    | posInf => simp [jsRound]
    | negInf => simp [jsRound]
    | fin a => simp [jsRound]

/-- A sequence of lane commands keeps the lane in range. -/
theorem runCmds_lane_range (l : List Cmd) (s : Sim) (hr : laneInRange s.lane s.lanes)
    (hl : 1 ≤ s.lanes) (hn : ∀ c ∈ l, c.noNaN) :
    laneInRange (runCmds s l).lane s.lanes ∧ (runCmds s l).lanes = s.lanes := by
  induction l generalizing s with
  | nil => exact ⟨hr, rfl⟩
  | cons c l ih =>
    have hstep := applyCmd_lane_range s c hr hl (hn c (List.mem_cons_self c l))
    have ih' := ih (applyCmd s c) (hstep.2 ▸ hstep.1) (hstep.2 ▸ hl)
      (fun d hd => hn d (List.mem_cons_of_mem c hd))
    refine ⟨hstep.2 ▸ ih'.1, ?_⟩
    show (runCmds (applyCmd s c) l).lanes = s.lanes
    rw [ih'.2, hstep.2]

/-- C4 (amended): for every configuration with at least 2 lanes (so that
the initial lane 1 is in range) and every sequence of `moveLeft`,
`moveRight` and `moveToLane` commands whose `moveToLane` arguments are not
NaN (infinities included: they clamp to the boundary lanes), the resulting
lane index is a finite number with `0 ≤ lane < laneCount`.  The claim as
stated fails: `moveToLane(NaN)` stores NaN in the lane (see the
counterexample), and for a 1-lane configuration the initial lane 1 is
already out of range. -/
theorem lane_invariant (cfg : SimConfig) (hl : 2 ≤ cfg.lanes) (l : List Cmd)
    (hn : ∀ c ∈ l, c.noNaN) :
    laneInRange (runCmds (Sim.init cfg) l).lane cfg.lanes := by
  have h2 : (2:ℚ) ≤ (cfg.lanes : ℚ) := by exact_mod_cast hl
  have hinit : laneInRange (Sim.init cfg).lane (Sim.init cfg).lanes :=
    ⟨1, rfl, by norm_num, by simp [Sim.init]; linarith⟩
  have := runCmds_lane_range l (Sim.init cfg) hinit (le_trans (by norm_num) hl) hn
  exact this.1

/-- C4 (counterexample): `moveToLane(NaN)` on the shipped 4-lane
configuration sets the lane to NaN — `Math.round` and `clamp` both
propagate NaN — which is not an in-range lane index. -/
theorem lane_nan_counterexample :
    ((Sim.init cfg4).moveToLane .nan).lane = JSNum.nan ∧
    ¬ laneInRange ((Sim.init cfg4).moveToLane .nan).lane (Sim.init cfg4).lanes := by
  refine ⟨rfl, ?_⟩
  rintro ⟨q, hq, -, -⟩
  rw [show ((Sim.init cfg4).moveToLane .nan).lane = JSNum.nan from rfl] at hq
  exact JSNum.noConfusion hq


/-- A crashed state is a fixed point of every run of `update` calls. -/
theorem runSteps_of_crashed (l : List Step) (s : Sim) (h : s.crashed = true) :
    runSteps s l = s := by
  induction l generalizing s with
  | nil => rfl
  | cons st l ih =>
    show runSteps (s.update st.dt st.world st.rand) l = s
    rw [update_of_crashed s st.dt st.world st.rand h]
    exact ih s h

/-- `update` leaves a normal pose (and its elapsed time) unchanged. -/
theorem update_pose_of_normal (s : Sim) (dtSec : JSNum) (world : World)
    (rand : ℕ → UnitRat) (h : s.pose = .normal) :
    (s.update dtSec world rand).pose = .normal ∧
    (s.update dtSec world rand).poseT = s.poseT := by
  cases hc : s.crashed with
  | true => rw [update_of_crashed s dtSec world rand hc]; exact ⟨h, rfl⟩
  | false =>
    cases dtSec with
    | fin q =>
      by_cases hq : q ≤ 0
      · rw [update_of_nonpos s q world rand hq]; exact ⟨h, rfl⟩
      · push_neg at hq
        constructor <;> simp [Sim.update, hc, not_le.mpr hq, poseStep, h]
    | nan => rw [update_of_not_finite s .nan world rand rfl]; exact ⟨h, rfl⟩
    | posInf => rw [update_of_not_finite s .posInf world rand rfl]; exact ⟨h, rfl⟩
    | negInf => rw [update_of_not_finite s .negInf world rand rfl]; exact ⟨h, rfl⟩

/-- Runs of `update` calls leave a normal pose unchanged. -/
theorem runSteps_pose_normal (l : List Step) (s : Sim) (h : s.pose = .normal) :
    (runSteps s l).pose = .normal ∧ (runSteps s l).poseT = s.poseT := by
  induction l generalizing s with
  | nil => exact ⟨h, rfl⟩
  | cons st l ih =>
    have hstep := update_pose_of_normal s st.dt st.world st.rand h
    have ih' := ih (s.update st.dt st.world st.rand) hstep.1
    exact ⟨ih'.1, hstep.2 ▸ ih'.2⟩

/-- On an effective step the pose fields follow `poseStep`. -/
theorem update_pose_eq (s : Sim) (world : World) (rand : ℕ → UnitRat) (q : ℚ)
    (hcr : s.crashed = false) (hq : 0 < q) :
    (s.update (.fin q) world rand).pose = (poseStep s.pose s.poseT (clampQ q 0 0.05)).1 ∧
    (s.update (.fin q) world rand).poseT = (poseStep s.pose s.poseT (clampQ q 0 0.05)).2 := by
  constructor <;> simp [Sim.update, hcr, not_le.mpr hq]

/-- A rejected (non-positive) delta contributes no effective time. -/
theorem effDt_of_nonpos (st : Step) (q : ℚ) (hdt : st.dt = .fin q) (hq : q ≤ 0) :
    st.effDt = 0 := by
  simp only [Step.effDt, hdt, clampQ]
  rw [min_eq_right (le_trans hq (by norm_num)), max_eq_left hq]

/-- Core pose-expiry induction: starting in an active pose with elapsed
time inside `[0, duration)`, once the cumulative clamped deltas of a
crash-free run reach the remaining duration, the pose has reverted to
normal with elapsed time 0. -/
theorem pose_expiry (p : PlayerPose) (hp : p ≠ .normal) (l : List Step) :
    ∀ s : Sim, s.pose = p → 0 ≤ s.poseT → s.poseT < poseDuration p →
      (runSteps s l).crashed = false → poseDuration p ≤ s.poseT + sumEffDt l →
      (runSteps s l).pose = .normal ∧ (runSteps s l).poseT = 0 := by
  induction l with
  | nil =>
    intro s hpose h0 hlt hfin hsum
    rw [show sumEffDt [] = 0 from rfl] at hsum
    linarith
  | cons st l ih =>
    intro s hpose h0 hlt hfin hsum
    have hrun : runSteps s (st :: l) = runSteps (s.update st.dt st.world st.rand) l := rfl
    by_cases hc : s.crashed = true
    · exfalso
      rw [hrun, update_of_crashed s st.dt st.world st.rand hc,
        runSteps_of_crashed l s hc] at hfin
      rw [hfin] at hc
      exact Bool.false_ne_true hc
    · have hcf : s.crashed = false := Bool.eq_false_iff.mpr hc
      have hsum' : sumEffDt (st :: l) = st.effDt + sumEffDt l := rfl
      cases hdt : st.dt with
      | fin q =>
        by_cases hq : q ≤ 0
        · have hnoop : s.update st.dt st.world st.rand = s := by
            rw [hdt]; exact update_of_nonpos s q st.world st.rand hq
          rw [hrun, hnoop]
          refine ih s hpose h0 hlt (by rw [hrun, hnoop] at hfin; exact hfin) ?_
          rw [hsum', effDt_of_nonpos st q hdt hq] at hsum
          linarith
        · push_neg at hq
          have hdt0 : 0 ≤ clampQ q 0 0.05 := (clampQ_bounds q (by norm_num)).1
          have heff : st.effDt = clampQ q 0 0.05 := by rw [Step.effDt, hdt]
          have hpp := update_pose_eq s st.world st.rand q hcf hq
          rw [hdt] at hrun
          by_cases hrev : poseDuration p ≤ s.poseT + clampQ q 0 0.05
          · -- the pose reverts in this step
            have hps : poseStep s.pose s.poseT (clampQ q 0 0.05) = (.normal, 0) := by
              rw [hpose, poseStep, if_neg hp]
              rw [show (if p = .jumping then (0.6:ℚ) else 0.75) = poseDuration p from rfl]
              rw [if_pos (by linarith)]
            have hnorm : (s.update (.fin q) st.world st.rand).pose = .normal := by
              rw [hpp.1, hps]
            have h2 := runSteps_pose_normal l (s.update (.fin q) st.world st.rand) hnorm
            rw [hrun]
            exact ⟨h2.1, by rw [h2.2, hpp.2, hps]⟩
          · push_neg at hrev
            have hps : poseStep s.pose s.poseT (clampQ q 0 0.05)
                = (p, s.poseT + clampQ q 0 0.05) := by
              rw [hpose, poseStep, if_neg hp]
              rw [show (if p = .jumping then (0.6:ℚ) else 0.75) = poseDuration p from rfl]
              rw [if_neg (by linarith)]
            rw [hrun]
            refine ih (s.update (.fin q) st.world st.rand)
              (by rw [hpp.1, hps]) (by rw [hpp.2, hps]; dsimp; linarith)
              (by rw [hpp.2, hps]; dsimp; linarith)
              (by rw [hrun] at hfin; exact hfin) ?_
            rw [hpp.2, hps]
            dsimp
            rw [hsum', heff] at hsum
            linarith
      | nan =>
        have hnoop : s.update st.dt st.world st.rand = s := by
          rw [hdt]; exact update_of_not_finite s .nan st.world st.rand rfl
        rw [hrun, hnoop]
        refine ih s hpose h0 hlt (by rw [hrun, hnoop] at hfin; exact hfin) ?_
        have heff : st.effDt = 0 := by rw [Step.effDt, hdt]
        rw [hsum', heff] at hsum
        linarith
      | posInf =>
        have hnoop : s.update st.dt st.world st.rand = s := by
          rw [hdt]; exact update_of_not_finite s .posInf st.world st.rand rfl
        rw [hrun, hnoop]
        refine ih s hpose h0 hlt (by rw [hrun, hnoop] at hfin; exact hfin) ?_
        have heff : st.effDt = 0 := by rw [Step.effDt, hdt]
        rw [hsum', heff] at hsum
        linarith
      | negInf =>
        have hnoop : s.update st.dt st.world st.rand = s := by
          rw [hdt]; exact update_of_not_finite s .negInf st.world st.rand rfl
        rw [hrun, hnoop]
        refine ih s hpose h0 hlt (by rw [hrun, hnoop] at hfin; exact hfin) ?_
        have heff : st.effDt = 0 := by rw [Step.effDt, hdt]
        rw [hsum', heff] at hsum
        linarith


/-- C8 (amended): over any crash-free run of `update` calls with no
intervening commands, starting from pose `jumping` (pose-elapsed time in
`[0, 0.6)`), once the cumulative CLAMPED deltas `min(dt, 0.05)` reach
0.6 s the pose is back to `normal` with pose-elapsed time 0; likewise for
`sliding` at 0.75 s.  The claim as stated — cumulative raw `dt` arguments
— fails because each call clamps its delta to 0.05 s (see the
counterexample). -/
theorem pose_expires (s : Sim) (l : List Step)
    (h0 : 0 ≤ s.poseT) (hfin : (runSteps s l).crashed = false) :
    (s.pose = .jumping → s.poseT < 0.6 → (0.6:ℚ) ≤ sumEffDt l →
      (runSteps s l).pose = .normal ∧ (runSteps s l).poseT = 0) ∧
    (s.pose = .sliding → s.poseT < 0.75 → (0.75:ℚ) ≤ sumEffDt l →
      (runSteps s l).pose = .normal ∧ (runSteps s l).poseT = 0) := by
  constructor
  · intro hp hlt hsum
    refine pose_expiry .jumping (by simp) l s hp h0 ?_ hfin ?_
    · simpa [poseDuration] using hlt
    · have hd : poseDuration .jumping = 0.6 := by simp [poseDuration]
      rw [hd]; linarith
  · intro hp hlt hsum
    refine pose_expiry .sliding (by simp) l s hp h0 ?_ hfin ?_
    · simpa [poseDuration] using hlt
    · have hd : poseDuration .sliding = 0.75 := by simp [poseDuration]
      rw [hd]; linarith


/-- Concrete evaluation: twelve 50 ms ticks from a fresh jump never crash. -/
theorem runTwelve_crashed_eval : (runSteps simJump0 (List.replicate 12 stepTick)).crashed = false := by
  norm_num [runSteps, List.replicate, Sim.update, simJump0, Sim.init, cfg4, easyOption,
    Sim.jump, stepTick, world0, clampQ, min_def, max_def, poseStep, spawnLoop_of_pos,
    List.foldl]

/-- Concrete evaluation: twelve 50 ms ticks accumulate 0.6 s of effective
time. -/
theorem runTwelve_sumEff_eval : (0.6:ℚ) ≤ sumEffDt (List.replicate 12 stepTick) := by
  norm_num [sumEffDt, Step.effDt, stepTick, clampQ, min_def, max_def, List.replicate]


/-- C8 witness: twelve 50 ms ticks from a fresh jump revert the pose. -/
theorem pose_expires_witness :
    0 ≤ simJump0.poseT ∧ simJump0.pose = .jumping ∧ simJump0.poseT < 0.6 ∧
    (0.6:ℚ) ≤ sumEffDt (List.replicate 12 stepTick) ∧
    (runSteps simJump0 (List.replicate 12 stepTick)).crashed = false ∧
    (runSteps simJump0 (List.replicate 12 stepTick)).pose = .normal ∧
    (runSteps simJump0 (List.replicate 12 stepTick)).poseT = 0 := by
  have h0 : simJump0.poseT = 0 := by norm_num [simJump0, Sim.jump, Sim.init]
  have hp : simJump0.pose = .jumping := by norm_num [simJump0, Sim.jump, Sim.init]
  have h := (pose_expires simJump0 (List.replicate 12 stepTick)
    (by rw [h0]) runTwelve_crashed_eval).1 hp (by rw [h0]; norm_num) runTwelve_sumEff_eval
  exact ⟨by rw [h0], hp, by rw [h0]; norm_num, runTwelve_sumEff_eval, runTwelve_crashed_eval, h.1, h.2⟩

/-- C8 (counterexample): a single `advance(0.7)` call — raw dt arguments
summing to 0.7 ≥ 0.6 — does NOT revert a fresh jump, because the delta is
clamped to 0.05 s. -/
theorem pose_unclamped_no_expiry :
    (0.6:ℚ) ≤ 7/10 ∧ simJump0.pose = .jumping ∧ simJump0.poseT = 0 ∧
    (simJump0.update (.fin (7/10)) world0 randHalf).crashed = false ∧
    (simJump0.update (.fin (7/10)) world0 randHalf).pose = .jumping := by
  refine ⟨by norm_num, by norm_num [simJump0, Sim.jump, Sim.init],
    by norm_num [simJump0, Sim.jump, Sim.init], ?_, ?_⟩
  · norm_num [simJump0, Sim.jump, Sim.init, cfg4, easyOption, Sim.update, world0,
      clampQ, min_def, max_def, poseStep, spawnLoop_of_pos]
  · norm_num [simJump0, Sim.jump, Sim.init, cfg4, easyOption, Sim.update, world0,
      clampQ, min_def, max_def, poseStep, spawnLoop_of_pos]
    decide

/-- The spawn loop's fuel is always sufficient when the interval is at or
above the 0.25 s floor: each iteration adds at least `0.85 * interval ≥
0.85 * 0.25` to the cooldown, the loop ends with a strictly positive
cooldown, and it appends at most `fuel` obstacles. -/
theorem spawnLoop_terminates (lanes : ℕ) (roadW I : ℚ) (rand : ℕ → UnitRat)
    (hI : 0.25 ≤ I) (fuel : ℕ) :
    ∀ (obs : List Obstacle) (nid i : ℕ) (c : ℚ), spawnFuel c I ≤ fuel →
      0 < (spawnLoop lanes roadW I rand fuel obs nid i c).cooldown ∧
      (spawnLoop lanes roadW I rand fuel obs nid i c).obstacles.length ≤ obs.length + fuel := by
  have hD : (0:ℚ) < (1 - 0.15) * I := by nlinarith
  induction fuel with
  | zero =>
    intro obs nid i c hf
    have h0 : spawnFuel c I = 0 := Nat.le_zero.mp hf
    rw [spawnFuel] at h0
    have h1 : (⌈1 - c / ((1 - 0.15) * I)⌉ : ℤ) ≤ 0 := Int.toNat_eq_zero.mp h0
    have h2 : 1 - c / ((1 - 0.15) * I) ≤ 0 := le_trans (Int.le_ceil _) (by exact_mod_cast h1)
    have h3 : (1 - 0.15) * I ≤ c := (one_le_div hD).mp (by linarith)
    exact ⟨lt_of_lt_of_le hD h3, Nat.le_add_right _ _⟩
  | succ n ih =>
    intro obs nid i c hf
    by_cases hc : c ≤ 0
    · rw [spawnLoop, if_pos hc]
      rcases hso : spawnObstacle lanes roadW rand i obs nid with ⟨obs', nid', i'⟩
      dsimp only
      have hlen : obs'.length = obs.length + 1 := by
        have := congrArg (fun t => t.1.length) hso
        simpa [spawnObstacle] using this.symm
      set r : ℚ := (rand i').val with hr
      have hrb : 0 ≤ r ∧ r < 1 := by rw [hr]; exact (rand i').property
      set c' : ℚ := c + I + (r * 2 - 1) * (0.15 * I) with hc'
      have hstep : c + (1 - 0.15) * I ≤ c' := by
        rw [hc']
        nlinarith [hrb.1, hrb.2]
      have hkey : (⌈1 - c' / ((1 - 0.15) * I)⌉ : ℤ) ≤ ⌈1 - c / ((1 - 0.15) * I)⌉ - 1 := by
        have hd1 : 1 - c' / ((1 - 0.15) * I) ≤ (1 - c / ((1 - 0.15) * I)) - 1 := by
          have hdiv : (c + (1 - 0.15) * I) / ((1 - 0.15) * I) ≤ c' / ((1 - 0.15) * I) :=
            (div_le_div_iff_of_pos_right hD).mpr hstep
          rw [add_div, div_self (ne_of_gt hD)] at hdiv
          linarith
        calc (⌈1 - c' / ((1 - 0.15) * I)⌉ : ℤ)
            ≤ ⌈(1 - c / ((1 - 0.15) * I)) - 1⌉ := Int.ceil_le_ceil hd1
          _ = ⌈1 - c / ((1 - 0.15) * I)⌉ - 1 := by
              rw [show ((1:ℚ)) = ((1:ℤ):ℚ) from by norm_num, Int.ceil_sub_int]
      have hge1 : (1:ℤ) ≤ ⌈1 - c / ((1 - 0.15) * I)⌉ := by
        have hdp : c / ((1 - 0.15) * I) ≤ 0 := div_nonpos_iff.mpr (Or.inr ⟨hc, le_of_lt hD⟩)
        have : (0:ℚ) < 1 - c / ((1 - 0.15) * I) := by linarith
        exact Int.lt_ceil.mpr (by exact_mod_cast this)
      have hf' : spawnFuel c' I ≤ n := by
        rw [spawnFuel] at hf ⊢
        omega
      have hrec := ih obs' nid' (i' + 1) c' hf'
      refine ⟨hrec.1, le_trans hrec.2 ?_⟩
      rw [hlen]
      omega
    · push_neg at hc
      rw [spawnLoop_of_pos lanes roadW I rand (n+1) obs nid i c hc]
      exact ⟨hc, Nat.le_add_right _ _⟩


/-- C10: on every effective `update` call the spawn loop terminates with a
strictly positive cooldown (the interval it re-adds is already floored at
0.25 s, and the jitter removes at most 15 % of it), and the number of
obstacles spawned in the call is bounded by the explicit fuel
`spawnFuel`. -/
theorem advance_spawn_bounded (s : Sim) (world : World) (rand : ℕ → UnitRat) (q : ℚ)
    (hcr : s.crashed = false) (hq : 0 < q) :
    0 < (s.update (.fin q) world rand).spawnCooldownSec ∧
    (s.update (.fin q) world rand).obstacles.length
      ≤ s.obstacles.length
        + spawnFuel (s.spawnCooldownSec - clampQ q 0 0.05)
            (max 0.25 (s.spawnIntervalSec * (1 - 0.01 * clampQ q 0 0.05))) := by
  have hcool : (s.update (.fin q) world rand).spawnCooldownSec
      = (spawnLoop s.lanes world.roadW
          (max 0.25 (s.spawnIntervalSec * (1 - 0.01 * clampQ q 0 0.05))) rand
          (spawnFuel (s.spawnCooldownSec - clampQ q 0 0.05)
            (max 0.25 (s.spawnIntervalSec * (1 - 0.01 * clampQ q 0 0.05))))
          s.obstacles s.nextId 0 (s.spawnCooldownSec - clampQ q 0 0.05)).cooldown := by
    simp [Sim.update, hcr, not_le.mpr hq]
  have hobs : (s.update (.fin q) world rand).obstacles
      = (((spawnLoop s.lanes world.roadW
          (max 0.25 (s.spawnIntervalSec * (1 - 0.01 * clampQ q 0 0.05))) rand
          (spawnFuel (s.spawnCooldownSec - clampQ q 0 0.05)
            (max 0.25 (s.spawnIntervalSec * (1 - 0.01 * clampQ q 0 0.05))))
          s.obstacles s.nextId 0 (s.spawnCooldownSec - clampQ q 0 0.05)).obstacles.map
            (fun o => { o with y := o.y
              + s.speedPxPerSec * (1 + 0.005 * clampQ q 0 0.05) * clampQ q 0 0.05 })).filter
            (fun o => o.y < world.height + 120)) := by
    simp [Sim.update, hcr, not_le.mpr hq]
  have h := spawnLoop_terminates s.lanes world.roadW
    (max 0.25 (s.spawnIntervalSec * (1 - 0.01 * clampQ q 0 0.05))) rand (le_max_left _ _)
    (spawnFuel (s.spawnCooldownSec - clampQ q 0 0.05)
      (max 0.25 (s.spawnIntervalSec * (1 - 0.01 * clampQ q 0 0.05))))
    s.obstacles s.nextId 0 (s.spawnCooldownSec - clampQ q 0 0.05) (le_refl _)
  constructor
  · rw [hcool]; exact h.1
  · rw [hobs]
    exact le_trans (List.length_filter_le _ _) (le_trans (le_of_eq (List.length_map _ _)) h.2)

/-- C10 witness: the spawn bound applied to the fresh 4-lane easy state. -/
theorem advance_spawn_bounded_witness :
    0 < ((Sim.init cfg4).update (.fin (1/60)) world0 randHalf).spawnCooldownSec ∧
    ((Sim.init cfg4).update (.fin (1/60)) world0 randHalf).obstacles.length
      ≤ (Sim.init cfg4).obstacles.length
        + spawnFuel ((Sim.init cfg4).spawnCooldownSec - clampQ (1/60) 0 0.05)
            (max 0.25 ((Sim.init cfg4).spawnIntervalSec * (1 - 0.01 * clampQ (1/60) 0 0.05))) :=
  advance_spawn_bounded (Sim.init cfg4) world0 randHalf (1/60) rfl (by norm_num)

/-- C5 witness: the monotonicity theorem applied to the fresh 4-lane easy
state and a concrete two-tick run. -/
theorem runSteps_speed_interval_witness :
    0 ≤ (Sim.init cfg4).speedPxPerSec ∧
    (0.25:ℚ) ≤ (Sim.init cfg4).spawnIntervalSec ∧
    ((Sim.init cfg4).speedPxPerSec
        ≤ (runSteps (Sim.init cfg4) [stepTick, stepTick]).speedPxPerSec ∧
      (runSteps (Sim.init cfg4) [stepTick, stepTick]).spawnIntervalSec
        ≤ (Sim.init cfg4).spawnIntervalSec ∧
      0.25 ≤ (runSteps (Sim.init cfg4) [stepTick, stepTick]).spawnIntervalSec) :=
  ⟨by norm_num [Sim.init, cfg4, easyOption],
   by norm_num [Sim.init, cfg4, easyOption],
   runSteps_speed_interval [stepTick, stepTick] (Sim.init cfg4)
     (by norm_num [Sim.init, cfg4, easyOption])
     (by norm_num [Sim.init, cfg4, easyOption])⟩

/-- C4 witness: the lane invariant applied to the 4-lane configuration and
a concrete command sequence mixing arrows, a far out-of-range pointer lane
and an infinite pointer lane. -/
theorem lane_invariant_witness :
    2 ≤ cfg4.lanes ∧
    laneInRange (runCmds (Sim.init cfg4)
      [Cmd.left, Cmd.toLane (.fin 10), Cmd.toLane .posInf, Cmd.right]).lane cfg4.lanes :=
  ⟨by norm_num [cfg4],
   lane_invariant cfg4 (by norm_num [cfg4])
     [Cmd.left, Cmd.toLane (.fin 10), Cmd.toLane .posInf, Cmd.right]
     (by simp [Cmd.noNaN])⟩

end LaneRunner
